import Mathlib

/-!
# Verification of `StyleRegistry` (src/editor/style_registry.rs)

A shallow embedding of the neovide style registry.  The registry keeps a
primary table from style identifiers to styles, two reverse indices from
colors to the style identifiers using them as background / foreground, and a
table of configured per-color opacities.  Rust's `HashMap` is modelled as an
association list whose `insert` replaces the value of an existing key in
place and appends a fresh key at the end; this fixes one concrete iteration
order for the (unspecified) `HashMap` iteration order.

The `Style` value itself is external to this slice (only `style_registry.rs`
is in scope); it is modelled from the spec as a record with optional
background / foreground color ids, two opacity slots and an opaque bag of
other attributes.  The spec stipulates (§8 P3) that opacity recomputation is
a pure function of the pair (configured opacity, default factor) only, so the
opacity slots store that pair itself — the free model of such a function.
The `f32` default factor and the `ColorOpacity` value are never computed
with inside this slice, so both are modelled as opaque tokens (`Nat`).
-/

abbrev StyleId : Type := Nat
abbrev ColorId : Type := Nat

/-- Modelled from the spec: `ColorOpacity` (§3 "Opacity: a value type capturing
how transparent a given color should render") is opaque to the registry, which
only stores it and hands it to the style's opacity setters.  It is modelled as
an opaque token. -/
abbrev ColorOpacity : Type := Nat

/-- Modelled from the spec: the `default_opacity : f32` scale factor (§4.2) is
opaque to the registry and is modelled as an opaque token. -/
abbrev Factor : Type := Nat

/-- An association-list model of Rust's `HashMap`. -/
structure Table (α β : Type) where
  entries : List (α × β)
deriving DecidableEq, Repr

namespace Table

/-- The empty map (`HashMap::new`). -/
def empty : Table α β := ⟨[]⟩

/-- `HashMap::get`: the value stored under the first entry with key `k`. -/
def lookupL [DecidableEq α] (k : α) : List (α × β) → Option β
  | [] => none
  | (a, b) :: rest => if a = k then some b else lookupL k rest

/-- `HashMap::insert`: replace the value of an existing key in place,
otherwise append the binding at the end. -/
def insertL [DecidableEq α] (k : α) (v : β) : List (α × β) → List (α × β)
  | [] => [(k, v)]
  | (a, b) :: rest => if a = k then (k, v) :: rest else (a, b) :: insertL k v rest

def lookup [DecidableEq α] (t : Table α β) (k : α) : Option β :=
  lookupL k t.entries

def insert [DecidableEq α] (t : Table α β) (k : α) (v : β) : Table α β :=
  ⟨insertL k v t.entries⟩

end Table

/-- Modelled from the spec: the external `Style` value (§3, §6) — an optional
background color id, an optional foreground color id, one opacity slot per
side, and further visual attributes opaque to the registry.  An opacity slot
holds the pair (configured opacity, default factor) it was last recomputed
from (`none` when never adjusted), the free model of the spec's "pure
function of (configured opacity, factor)". -/
structure Style where
  bg : Option ColorId
  fg : Option ColorId
  bgOpacity : Option (ColorOpacity × Factor)
  fgOpacity : Option (ColorOpacity × Factor)
  attrs : Nat
deriving DecidableEq, Repr

namespace Style

/-- Modelled from the spec: `Style::set_background_opacity` recomputes the
background opacity slot purely from the given opacity and default factor
(§6, §8 P3); it touches no other field. -/
def set_background_opacity (s : Style) (o : ColorOpacity) (d : Factor) : Style :=
  { s with bgOpacity := some (o, d) }

/-- Modelled from the spec: `Style::set_foreground_opacity`, symmetric to
`set_background_opacity` on the foreground slot. -/
def set_foreground_opacity (s : Style) (o : ColorOpacity) (d : Factor) : Style :=
  { s with fgOpacity := some (o, d) }

end Style

/-- The `StyleRegistry` struct: primary table, opacity table and the two
reverse indices. -/
structure StyleRegistry where
  defined_styles : Table StyleId Style
  defined_opacities : Table ColorId ColorOpacity
  background_color_style_map : Table ColorId (List StyleId)
  foreground_color_style_map : Table ColorId (List StyleId)
deriving DecidableEq, Repr

namespace StyleRegistry

/-- `StyleRegistry::new`: all four tables empty. -/
def new : StyleRegistry :=
  { defined_styles := Table.empty
    defined_opacities := Table.empty
    background_color_style_map := Table.empty
    foreground_color_style_map := Table.empty }

/-- `StyleRegistry::default_style`: a clone of the style stored under id 0. -/
def default_style (r : StyleRegistry) : Option Style :=
  r.defined_styles.lookup 0

/-- `StyleRegistry::update_style_opacities_from_existing_mapping`: apply any
recorded opacity of the style's background color, then of its foreground
color, to the style. -/
def update_style_opacities_from_existing_mapping
    (r : StyleRegistry) (style : Style) (opacity : Factor) : Style :=
  let style :=
    match style.bg.bind (fun bg => r.defined_opacities.lookup bg) with
    | some o => style.set_background_opacity o opacity
    | none => style
  match style.fg.bind (fun fg => r.defined_opacities.lookup fg) with
  | some o => style.set_foreground_opacity o opacity
  | none => style

/-- `StyleRegistry::update_color_to_style_mapping`: append the id to the
background reverse index under the style's background color (if any), then to
the foreground reverse index under its foreground color (if any)
(`entry(color).or_default().push(id)`). -/
def update_color_to_style_mapping
    (r : StyleRegistry) (style : Style) (id : StyleId) : StyleRegistry :=
  let r :=
    match style.bg with
    | some color =>
        let l := ((r.background_color_style_map.lookup color).getD []) ++ [id]
        { r with background_color_style_map :=
                   r.background_color_style_map.insert color l }
    | none => r
  match style.fg with
  | some color =>
      let l := ((r.foreground_color_style_map.lookup color).getD []) ++ [id]
      { r with foreground_color_style_map :=
                 r.foreground_color_style_map.insert color l }
  | none => r

/-- `StyleRegistry::set_style`: adjust the incoming style from the recorded
opacities, record its colors in the reverse indices, then store it under the
id (replacing any prior value). -/
def set_style (r : StyleRegistry) (style : Style) (id : StyleId)
    (default_opacity : Factor) : StyleRegistry :=
  let style := r.update_style_opacities_from_existing_mapping style default_opacity
  let r := r.update_color_to_style_mapping style id
  { r with defined_styles := r.defined_styles.insert id style }

/-- One step of the `update_opacity` closure inside `StyleRegistry::set_opacity`:
fetch the current style under `id` (skipping an absent id), apply the setter,
and store the result back. -/
def stepUpdate (f : Style → Style) (acc : Table StyleId Style) (id : StyleId) :
    Table StyleId Style :=
  match acc.lookup id with
  | some style => acc.insert id (f style)
  | none => acc

/-- The `update_opacity` closure inside `StyleRegistry::set_opacity`: for each
id recorded in the given reverse index under `color`, fetch the current style
(skipping absent ids), apply the setter, and store the result back. -/
def update_opacity_pass (styles : Table StyleId Style)
    (styles_map : Table ColorId (List StyleId)) (color : ColorId)
    (f : Style → Style) : Table StyleId Style :=
  match styles_map.lookup color with
  | some styles_id => styles_id.foldl (stepUpdate f) styles
  | none => styles

/-- `StyleRegistry::set_opacity`: run the update pass over the background
reverse index with the background setter, then over the foreground reverse
index with the foreground setter, then upsert the color's opacity entry. -/
def set_opacity (r : StyleRegistry) (color : ColorId)
    (color_opacity : ColorOpacity) (default_opacity : Factor) : StyleRegistry :=
  let styles := update_opacity_pass r.defined_styles r.background_color_style_map
    color (fun s => s.set_background_opacity color_opacity default_opacity)
  let styles := update_opacity_pass styles r.foreground_color_style_map
    color (fun s => s.set_foreground_opacity color_opacity default_opacity)
  { r with
      defined_styles := styles
      defined_opacities := r.defined_opacities.insert color color_opacity }

/-- The `get_updated_styles` closure inside
`StyleRegistry::update_all_styles_opacity`: for each reverse-index entry whose
color has a recorded opacity, pair every listed id that has a current style
with that style rebuilt by the setter from the recorded opacity and the new
default factor.  Both collections read the pre-call primary table. -/
def get_updated_styles (r : StyleRegistry)
    (color_style_map : Table ColorId (List StyleId))
    (f : Style → ColorOpacity → Factor → Style) (default_opacity : Factor) :
    List (StyleId × Style) :=
  color_style_map.entries.flatMap
    (fun p =>
      match r.defined_opacities.lookup p.1 with
      | some color_opacity =>
          p.2.filterMap
            (fun id =>
              (r.defined_styles.lookup id).map
                (fun s => (id, f s color_opacity default_opacity)))
      | none => [])

/-- The write-back loops of `StyleRegistry::update_all_styles_opacity`:
insert every collected `(id, style)` pair into the primary table in order. -/
def writeBack (t : Table StyleId Style) (ps : List (StyleId × Style)) :
    Table StyleId Style :=
  ps.foldl (fun acc p => acc.insert p.1 p.2) t

/-- `StyleRegistry::update_all_styles_opacity`: collect the recomputed
background styles and the recomputed foreground styles (both from the pre-call
table), then write back the background batch followed by the foreground
batch. -/
def update_all_styles_opacity (r : StyleRegistry) (default_opacity : Factor) :
    StyleRegistry :=
  let new_background_styles := get_updated_styles r r.background_color_style_map
    Style.set_background_opacity default_opacity
  let new_foreground_styles := get_updated_styles r r.foreground_color_style_map
    Style.set_foreground_opacity default_opacity
  let styles := writeBack r.defined_styles new_background_styles
  let styles := writeBack styles new_foreground_styles
  { r with defined_styles := styles }

end StyleRegistry

/-! ## Derived notions used by the statements and proofs -/

/-- The list of style identifiers recorded in a reverse index under a color
(empty when the color has no entry). -/
def idsOf (m : Table ColorId (List StyleId)) (c : ColorId) : List StyleId :=
  (m.lookup c).getD []

/-- The value written last for key `j` by a write-back batch, if any. -/
def lastWrite (j : StyleId) : List (StyleId × Style) → Option Style
  | [] => none
  | p :: ps =>
    match lastWrite j ps with
    | some v => some v
    | none => if p.1 = j then some p.2 else none

/-- The write plan of one `get_updated_styles` pass: the (identifier, rebuild
function) pairs it would produce, before filtering on the identifiers that
actually have a current style. -/
def specOf (opac : Table ColorId ColorOpacity) (m : Table ColorId (List StyleId))
    (f : Style → ColorOpacity → Factor → Style) (d : Factor) :
    List (StyleId × (Style → Style)) :=
  m.entries.flatMap
    (fun p =>
      match opac.lookup p.1 with
      | some co => p.2.map (fun j => (j, fun s => f s co d))
      | none => [])

/-- The rebuild function applied last to key `j` by a write plan, if any. -/
def planLast (j : StyleId) : List (StyleId × (Style → Style)) → Option (Style → Style)
  | [] => none
  | q :: qs =>
    match planLast j qs with
    | some g => some g
    | none => if q.1 = j then some q.2 else none

/-- The combined write plan of `update_all_styles_opacity`: the background
pass followed by the foreground pass. -/
def updateAllSpec (r : StyleRegistry) (d : Factor) :
    List (StyleId × (Style → Style)) :=
  specOf r.defined_opacities r.background_color_style_map
      Style.set_background_opacity d
    ++ specOf r.defined_opacities r.foreground_color_style_map
      Style.set_foreground_opacity d

/-- The registry's operations, for reasoning about call sequences. -/
inductive Op where
  | setStyle (style : Style) (id : StyleId) (d : Factor)
  | setOpacity (color : ColorId) (o : ColorOpacity) (d : Factor)
  | updateAll (d : Factor)
deriving DecidableEq, Repr

/-- Run one operation on the registry. -/
def exec (r : StyleRegistry) : Op → StyleRegistry
  | .setStyle style id d => r.set_style style id d
  | .setOpacity c o d => r.set_opacity c o d
  | .updateAll d => r.update_all_styles_opacity d

/-- Run a sequence of operations on the registry. -/
def execAll (r : StyleRegistry) (ops : List Op) : StyleRegistry :=
  ops.foldl exec r

/-- Whether an operation defines a style under the given identifier. -/
def Op.touchesId (op : Op) (id : StyleId) : Bool :=
  match op with
  | Op.setStyle _ i _ => i = id
  | Op.setOpacity _ _ _ => false
  | Op.updateAll _ => false

/-! ## Concrete registries used as witnesses and counterexamples -/

/-- A registry holding one style (id 1) that uses color 5 as background and
color 6 as foreground, with opacities recorded for both colors and the stored
style still reflecting an older default factor (token 0). -/
def dualColorRegistry : StyleRegistry :=
  { defined_styles :=
      ⟨[(1, { bg := some 5, fg := some 6, bgOpacity := some (10, 0),
              fgOpacity := some (20, 0), attrs := 0 })]⟩
    defined_opacities := ⟨[(5, 10), (6, 20)]⟩
    background_color_style_map := ⟨[(5, [1])]⟩
    foreground_color_style_map := ⟨[(6, [1])]⟩ }

/-- A registry holding one style (id 1) that uses color 5 only as foreground
(no background color) and has never been opacity-adjusted. -/
def fgOnlyRegistry : StyleRegistry :=
  { defined_styles :=
      ⟨[(1, { bg := none, fg := some 5, bgOpacity := none,
              fgOpacity := none, attrs := 3 })]⟩
    defined_opacities := ⟨[]⟩
    background_color_style_map := ⟨[]⟩
    foreground_color_style_map := ⟨[(5, [1])]⟩ }

/-- A sample style with background color 5 and foreground color 6, not yet
opacity-adjusted. -/
def sampleStyle : Style :=
  { bg := some 5, fg := some 6, bgOpacity := none, fgOpacity := none, attrs := 7 }

/-- The style stored in `fgOnlyRegistry`. -/
def fgOnlyStyleBefore : Style :=
  { bg := none, fg := some 5, bgOpacity := none, fgOpacity := none, attrs := 3 }

/-- The `fgOnlyRegistry` style after `set_opacity(5, 7, 1)`. -/
def fgOnlyStyleAfter : Style :=
  { bg := none, fg := some 5, bgOpacity := none, fgOpacity := some (7, 1), attrs := 3 }

/-- The `bothColorRegistry` style after `set_opacity(5, 9, 4)`. -/
def bothColorStyleAfter : Style :=
  { bg := some 5, fg := some 5, bgOpacity := some (9, 4), fgOpacity := some (9, 4),
    attrs := 2 }

/-- A registry holding one style (id 1) that uses color 5 as both background
and foreground, with no opacity recorded yet. -/
def bothColorRegistry : StyleRegistry :=
  { defined_styles :=
      ⟨[(1, { bg := some 5, fg := some 5, bgOpacity := none,
              fgOpacity := none, attrs := 2 })]⟩
    defined_opacities := ⟨[]⟩
    background_color_style_map := ⟨[(5, [1])]⟩
    foreground_color_style_map := ⟨[(5, [1])]⟩ }

/-- A registry with an opacity recorded for color 5 and nothing else. -/
def opacityRegistry : StyleRegistry :=
  { defined_styles := ⟨[]⟩
    defined_opacities := ⟨[(5, 9)]⟩
    background_color_style_map := ⟨[]⟩
    foreground_color_style_map := ⟨[]⟩ }

/-- The style stored under id 1 in `dualColorRegistry`. -/
def dualStoredStyle : Style :=
  { bg := some 5, fg := some 6, bgOpacity := some (10, 0), fgOpacity := some (20, 0),
    attrs := 0 }

/-- `sampleStyle` as adjusted by `dualColorRegistry` with default factor 2. -/
def sampleStyleAdjusted : Style :=
  { bg := some 5, fg := some 6, bgOpacity := some (10, 2), fgOpacity := some (20, 2),
    attrs := 7 }

/-- A style with neither a background nor a foreground color. -/
def colorlessStyle : Style :=
  { bg := none, fg := none, bgOpacity := none, fgOpacity := none, attrs := 1 }

/-! ## Table lemmas -/

theorem Table.lookupL_insertL [DecidableEq α] (k j : α) (v : β)
    (l : List (α × β)) :
    Table.lookupL j (Table.insertL k v l) = if k = j then some v else Table.lookupL j l := by
  induction l with
  | nil => by_cases h : k = j <;> simp [Table.insertL, Table.lookupL, h]
  | cons p rest ih =>
    obtain ⟨a, b⟩ := p
    by_cases hak : a = k
    · subst hak
      by_cases haj : a = j <;> simp [Table.insertL, Table.lookupL, haj]
    · by_cases haj : a = j
      · subst haj
        have hka : ¬ k = a := fun h => hak h.symm
        simp [Table.insertL, hak, Table.lookupL, hka]
      · simp [Table.insertL, hak, Table.lookupL, haj, ih]

theorem Table.lookup_insert [DecidableEq α] (t : Table α β) (k j : α) (v : β) :
    (t.insert k v).lookup j = if k = j then some v else t.lookup j := by
  simp [Table.lookup, Table.insert, Table.lookupL_insertL]

theorem Table.lookup_insert_self [DecidableEq α] (t : Table α β) (k : α) (v : β) :
    (t.insert k v).lookup k = some v := by
  simp [Table.lookup_insert]

theorem Table.lookup_insert_ne [DecidableEq α] (t : Table α β) (k j : α) (v : β)
    (h : k ≠ j) : (t.insert k v).lookup j = t.lookup j := by
  simp [Table.lookup_insert, h]

/-! ## Characterization of `set_opacity` -/

theorem Style.set_background_opacity_idem (o : ColorOpacity) (d : Factor) (s : Style) :
    (s.set_background_opacity o d).set_background_opacity o d = s.set_background_opacity o d := by
  simp [Style.set_background_opacity]

theorem Style.set_foreground_opacity_idem (o : ColorOpacity) (d : Factor) (s : Style) :
    (s.set_foreground_opacity o d).set_foreground_opacity o d = s.set_foreground_opacity o d := by
  simp [Style.set_foreground_opacity]

theorem StyleRegistry.stepUpdate_lookup (f : Style → Style) (t : Table StyleId Style)
    (i j : StyleId) :
    (StyleRegistry.stepUpdate f t i).lookup j
      = if i = j then (t.lookup j).map f else t.lookup j := by
  unfold StyleRegistry.stepUpdate
  cases h : t.lookup i with
  | none =>
    by_cases hij : i = j
    · subst hij; simp [h]
    · simp [hij]
  | some s =>
    by_cases hij : i = j
    · subst hij; simp [Table.lookup_insert, h]
    · simp [Table.lookup_insert, hij]

theorem StyleRegistry.foldl_stepUpdate_lookup (f : Style → Style)
    (hf : ∀ s, f (f s) = f s) (l : List StyleId) :
    ∀ (t : Table StyleId Style) (j : StyleId),
      (l.foldl (StyleRegistry.stepUpdate f) t).lookup j
        = if j ∈ l then (t.lookup j).map f else t.lookup j := by
  induction l with
  | nil => intro t j; simp
  | cons i l ih =>
    intro t j
    have step := StyleRegistry.stepUpdate_lookup f t i j
    rw [List.foldl_cons, ih]
    by_cases hij : i = j
    · subst hij
      rw [if_pos rfl] at step
      by_cases hjl : i ∈ l
      · rw [if_pos hjl, step, if_pos (List.mem_cons_self _ _)]
        cases t.lookup i <;> simp [hf]
      · rw [if_neg hjl, step, if_pos (List.mem_cons_self _ _)]
    · rw [if_neg hij] at step
      by_cases hjl : j ∈ l
      · have : j ∈ i :: l := List.mem_cons_of_mem i hjl
        rw [if_pos hjl, step, if_pos this]
      · have hji : j ∉ i :: l := by
          simp only [List.mem_cons]
          push_neg
          exact ⟨fun h => hij h.symm, hjl⟩
        rw [if_neg hjl, step, if_neg hji]

theorem StyleRegistry.update_opacity_pass_lookup (t : Table StyleId Style)
    (m : Table ColorId (List StyleId)) (c : ColorId) (f : Style → Style)
    (hf : ∀ s, f (f s) = f s) (j : StyleId) :
    (StyleRegistry.update_opacity_pass t m c f).lookup j
      = if j ∈ idsOf m c then (t.lookup j).map f else t.lookup j := by
  unfold StyleRegistry.update_opacity_pass idsOf
  cases h : m.lookup c with
  | none => simp
  | some l => simp [StyleRegistry.foldl_stepUpdate_lookup f hf l t j]

/-- Pointwise effect of `set_opacity` on the primary table: a stored style is
rebuilt by the background setter when its id is indexed under the color as
background, then by the foreground setter when indexed as foreground; all
other entries are untouched. -/
theorem StyleRegistry.set_opacity_lookup (r : StyleRegistry) (c : ColorId)
    (o : ColorOpacity) (d : Factor) (j : StyleId) :
    ((r.set_opacity c o d).defined_styles).lookup j
      = (r.defined_styles.lookup j).map (fun s =>
          let s1 := if j ∈ idsOf r.background_color_style_map c
            then s.set_background_opacity o d else s
          if j ∈ idsOf r.foreground_color_style_map c
            then s1.set_foreground_opacity o d else s1) := by
  show (StyleRegistry.update_opacity_pass
      (StyleRegistry.update_opacity_pass r.defined_styles
        r.background_color_style_map c (fun s => s.set_background_opacity o d))
      r.foreground_color_style_map c (fun s => s.set_foreground_opacity o d)).lookup j = _
  rw [StyleRegistry.update_opacity_pass_lookup _ _ _ _
    (Style.set_foreground_opacity_idem o d) j]
  rw [StyleRegistry.update_opacity_pass_lookup _ _ _ _
    (Style.set_background_opacity_idem o d) j]
  by_cases hb : j ∈ idsOf r.background_color_style_map c <;>
    by_cases hfg : j ∈ idsOf r.foreground_color_style_map c <;>
      cases r.defined_styles.lookup j <;> simp [hb, hfg]

/-- `set_opacity` upserts the color's opacity entry and leaves both reverse
indices unchanged. -/
theorem StyleRegistry.set_opacity_rest (r : StyleRegistry) (c : ColorId)
    (o : ColorOpacity) (d : Factor) :
    (r.set_opacity c o d).defined_opacities = r.defined_opacities.insert c o ∧
    (r.set_opacity c o d).background_color_style_map = r.background_color_style_map ∧
    (r.set_opacity c o d).foreground_color_style_map = r.foreground_color_style_map :=
  ⟨rfl, rfl, rfl⟩

/-! ## Characterization of `set_style` -/

theorem StyleRegistry.update_color_to_style_mapping_styles (r : StyleRegistry)
    (style : Style) (id : StyleId) :
    (r.update_color_to_style_mapping style id).defined_styles = r.defined_styles := by
  unfold StyleRegistry.update_color_to_style_mapping
  cases style.bg <;> cases style.fg <;> rfl

theorem StyleRegistry.update_color_to_style_mapping_opacities (r : StyleRegistry)
    (style : Style) (id : StyleId) :
    (r.update_color_to_style_mapping style id).defined_opacities = r.defined_opacities := by
  unfold StyleRegistry.update_color_to_style_mapping
  cases style.bg <;> cases style.fg <;> rfl

theorem StyleRegistry.update_color_to_style_mapping_bg (r : StyleRegistry)
    (style : Style) (id : StyleId) (c : ColorId) :
    (r.update_color_to_style_mapping style id).background_color_style_map.lookup c
      = if style.bg = some c
        then some (idsOf r.background_color_style_map c ++ [id])
        else r.background_color_style_map.lookup c := by
  unfold StyleRegistry.update_color_to_style_mapping idsOf
  cases hbg : style.bg with
  | none => cases hfg : style.fg <;> simp
  | some c' =>
    cases hfg : style.fg <;>
      · by_cases hc : c' = c
        · subst hc; simp [Table.lookup_insert]
        · have : ¬ (some c' = some c) := by simp [hc]
          simp [Table.lookup_insert, hc, this]

theorem StyleRegistry.update_color_to_style_mapping_fg (r : StyleRegistry)
    (style : Style) (id : StyleId) (c : ColorId) :
    (r.update_color_to_style_mapping style id).foreground_color_style_map.lookup c
      = if style.fg = some c
        then some (idsOf r.foreground_color_style_map c ++ [id])
        else r.foreground_color_style_map.lookup c := by
  unfold StyleRegistry.update_color_to_style_mapping idsOf
  cases hbg : style.bg with
  | none =>
    cases hfg : style.fg with
    | none => simp
    | some c' =>
      by_cases hc : c' = c
      · subst hc; simp [Table.lookup_insert]
      · have : ¬ (some c' = some c) := by simp [hc]
        simp [Table.lookup_insert, hc, this]
  | some b' =>
    cases hfg : style.fg with
    | none => simp
    | some c' =>
      by_cases hc : c' = c
      · subst hc; simp [Table.lookup_insert]
      · have : ¬ (some c' = some c) := by simp [hc]
        simp [Table.lookup_insert, hc, this]

theorem StyleRegistry.adjust_bg (r : StyleRegistry) (s : Style) (d : Factor) :
    (r.update_style_opacities_from_existing_mapping s d).bg = s.bg := by
  cases hbg : s.bg.bind (fun bg => r.defined_opacities.lookup bg) <;>
    cases hfg : s.fg.bind (fun fg => r.defined_opacities.lookup fg) <;>
      simp [StyleRegistry.update_style_opacities_from_existing_mapping, hbg, hfg,
        Style.set_background_opacity, Style.set_foreground_opacity]

theorem StyleRegistry.adjust_fg (r : StyleRegistry) (s : Style) (d : Factor) :
    (r.update_style_opacities_from_existing_mapping s d).fg = s.fg := by
  cases hbg : s.bg.bind (fun bg => r.defined_opacities.lookup bg) <;>
    cases hfg : s.fg.bind (fun fg => r.defined_opacities.lookup fg) <;>
      simp [StyleRegistry.update_style_opacities_from_existing_mapping, hbg, hfg,
        Style.set_background_opacity, Style.set_foreground_opacity]

theorem StyleRegistry.adjust_attrs (r : StyleRegistry) (s : Style) (d : Factor) :
    (r.update_style_opacities_from_existing_mapping s d).attrs = s.attrs := by
  cases hbg : s.bg.bind (fun bg => r.defined_opacities.lookup bg) <;>
    cases hfg : s.fg.bind (fun fg => r.defined_opacities.lookup fg) <;>
      simp [StyleRegistry.update_style_opacities_from_existing_mapping, hbg, hfg,
        Style.set_background_opacity, Style.set_foreground_opacity]

theorem StyleRegistry.adjust_bgOpacity_some (r : StyleRegistry) (s : Style)
    (d : Factor) (c : ColorId) (o : ColorOpacity) (hb : s.bg = some c)
    (ho : r.defined_opacities.lookup c = some o) :
    (r.update_style_opacities_from_existing_mapping s d).bgOpacity = some (o, d) := by
  have hbind : s.bg.bind (fun bg => r.defined_opacities.lookup bg) = some o := by
    simp [hb, ho]
  cases hfg : s.fg.bind (fun fg => r.defined_opacities.lookup fg) <;>
    simp [StyleRegistry.update_style_opacities_from_existing_mapping, hbind, hfg,
      Style.set_background_opacity, Style.set_foreground_opacity]

theorem StyleRegistry.adjust_bgOpacity_none (r : StyleRegistry) (s : Style)
    (d : Factor) (h : s.bg.bind (fun bg => r.defined_opacities.lookup bg) = none) :
    (r.update_style_opacities_from_existing_mapping s d).bgOpacity = s.bgOpacity := by
  cases hfg : s.fg.bind (fun fg => r.defined_opacities.lookup fg) <;>
    simp [StyleRegistry.update_style_opacities_from_existing_mapping, h, hfg,
      Style.set_background_opacity, Style.set_foreground_opacity]

theorem StyleRegistry.adjust_fgOpacity_some (r : StyleRegistry) (s : Style)
    (d : Factor) (c : ColorId) (o : ColorOpacity) (hb : s.fg = some c)
    (ho : r.defined_opacities.lookup c = some o) :
    (r.update_style_opacities_from_existing_mapping s d).fgOpacity = some (o, d) := by
  have hbind : s.fg.bind (fun fg => r.defined_opacities.lookup fg) = some o := by
    simp [hb, ho]
  cases hbg : s.bg.bind (fun bg => r.defined_opacities.lookup bg) <;>
    simp [StyleRegistry.update_style_opacities_from_existing_mapping, hbind, hbg,
      Style.set_background_opacity, Style.set_foreground_opacity]

theorem StyleRegistry.adjust_fgOpacity_none (r : StyleRegistry) (s : Style)
    (d : Factor) (h : s.fg.bind (fun fg => r.defined_opacities.lookup fg) = none) :
    (r.update_style_opacities_from_existing_mapping s d).fgOpacity = s.fgOpacity := by
  cases hbg : s.bg.bind (fun bg => r.defined_opacities.lookup bg) <;>
    simp [StyleRegistry.update_style_opacities_from_existing_mapping, h, hbg,
      Style.set_background_opacity, Style.set_foreground_opacity]

/-- Pointwise effect of `set_style` on the primary table: the id now maps to
the opacity-adjusted input style; every other entry is untouched. -/
theorem StyleRegistry.set_style_lookup (r : StyleRegistry) (style : Style)
    (id : StyleId) (d : Factor) (j : StyleId) :
    ((r.set_style style id d).defined_styles).lookup j
      = if id = j
        then some (r.update_style_opacities_from_existing_mapping style d)
        else r.defined_styles.lookup j := by
  show ((r.update_color_to_style_mapping
      (r.update_style_opacities_from_existing_mapping style d) id).defined_styles.insert
        id (r.update_style_opacities_from_existing_mapping style d)).lookup j = _
  rw [Table.lookup_insert, StyleRegistry.update_color_to_style_mapping_styles]

/-- Effect of `set_style` on the background reverse index: the id is appended
once under the style's background color (if any); all other lists are kept. -/
theorem StyleRegistry.set_style_bg_index (r : StyleRegistry) (style : Style)
    (id : StyleId) (d : Factor) (c : ColorId) :
    (r.set_style style id d).background_color_style_map.lookup c
      = if style.bg = some c
        then some (idsOf r.background_color_style_map c ++ [id])
        else r.background_color_style_map.lookup c := by
  show (r.update_color_to_style_mapping
      (r.update_style_opacities_from_existing_mapping style d) id).background_color_style_map.lookup c = _
  rw [StyleRegistry.update_color_to_style_mapping_bg, StyleRegistry.adjust_bg]

/-- Effect of `set_style` on the foreground reverse index, symmetric to the
background case. -/
theorem StyleRegistry.set_style_fg_index (r : StyleRegistry) (style : Style)
    (id : StyleId) (d : Factor) (c : ColorId) :
    (r.set_style style id d).foreground_color_style_map.lookup c
      = if style.fg = some c
        then some (idsOf r.foreground_color_style_map c ++ [id])
        else r.foreground_color_style_map.lookup c := by
  show (r.update_color_to_style_mapping
      (r.update_style_opacities_from_existing_mapping style d) id).foreground_color_style_map.lookup c = _
  rw [StyleRegistry.update_color_to_style_mapping_fg, StyleRegistry.adjust_fg]

theorem StyleRegistry.set_style_opacities (r : StyleRegistry) (style : Style)
    (id : StyleId) (d : Factor) :
    (r.set_style style id d).defined_opacities = r.defined_opacities := by
  show (r.update_color_to_style_mapping
      (r.update_style_opacities_from_existing_mapping style d) id).defined_opacities = _
  rw [StyleRegistry.update_color_to_style_mapping_opacities]

/-! ## Characterization of `update_all_styles_opacity` -/

theorem StyleRegistry.writeBack_append (t : Table StyleId Style)
    (ps qs : List (StyleId × Style)) :
    StyleRegistry.writeBack (StyleRegistry.writeBack t ps) qs
      = StyleRegistry.writeBack t (ps ++ qs) := by
  simp [StyleRegistry.writeBack, List.foldl_append]

theorem StyleRegistry.writeBack_lookup (ps : List (StyleId × Style)) :
    ∀ (t : Table StyleId Style) (j : StyleId),
      (StyleRegistry.writeBack t ps).lookup j
        = match lastWrite j ps with
          | some v => some v
          | none => t.lookup j := by
  induction ps with
  | nil => intro t j; simp [StyleRegistry.writeBack, lastWrite]
  | cons p ps ih =>
    intro t j
    show (StyleRegistry.writeBack (t.insert p.1 p.2) ps).lookup j = _
    rw [ih]
    cases h : lastWrite j ps with
    | some v => simp [lastWrite, h]
    | none =>
      rw [Table.lookup_insert]
      by_cases hp : p.1 = j <;> simp [lastWrite, h, hp]

theorem StyleRegistry.get_updated_styles_eq (r : StyleRegistry)
    (m : Table ColorId (List StyleId)) (f : Style → ColorOpacity → Factor → Style)
    (d : Factor) :
    StyleRegistry.get_updated_styles r m f d
      = (specOf r.defined_opacities m f d).filterMap
          (fun q => (r.defined_styles.lookup q.1).map (fun s => (q.1, q.2 s))) := by
  unfold StyleRegistry.get_updated_styles specOf
  generalize m.entries = l
  induction l with
  | nil => simp
  | cons p rest ih =>
    simp only [List.flatMap_cons, List.filterMap_append, ih]
    congr 1
    cases h : r.defined_opacities.lookup p.1 with
    | none => simp
    | some co =>
      simp only [List.filterMap_map]
      rfl

theorem lastWrite_filterMap (t : Table StyleId Style)
    (L : List (StyleId × (Style → Style))) (j : StyleId) :
    lastWrite j (L.filterMap (fun q => (t.lookup q.1).map (fun s => (q.1, q.2 s))))
      = match planLast j L, t.lookup j with
        | some g, some s => some (g s)
        | _, _ => none := by
  induction L with
  | nil => cases t.lookup j <;> simp [lastWrite, planLast]
  | cons q L ih =>
    rw [List.filterMap_cons]
    cases hq : t.lookup q.1 with
    | none =>
      simp only [Option.map_none']
      rw [ih]
      cases hp : planLast j L with
      | some g => simp [planLast, hp]
      | none =>
        by_cases hqj : q.1 = j
        · have hj : t.lookup j = none := by rw [← hqj]; exact hq
          simp [planLast, hp, hqj, hj]
        · simp [planLast, hp, hqj]
    | some s =>
      simp only [Option.map_some']
      rw [lastWrite, ih]
      cases hp : planLast j L with
      | some g =>
        cases hj : t.lookup j with
        | some s' => simp [planLast, hp, hj]
        | none =>
          have hqj : ¬ q.1 = j := by
            intro h
            rw [h, hj] at hq
            exact Option.noConfusion hq
          simp [planLast, hp, hj, hqj]
      | none =>
        by_cases hqj : q.1 = j
        · have hj : t.lookup j = some s := by rw [← hqj]; exact hq
          simp [planLast, hp, hqj, hj]
        · simp [planLast, hp, hqj]

/-- Pointwise effect of `update_all_styles_opacity` on the primary table: an
entry is rebuilt by the last rebuild function its id receives in the combined
(background then foreground) write plan, from the PRE-CALL style; entries
outside the plan are untouched. -/
theorem StyleRegistry.update_all_lookup (r : StyleRegistry) (d : Factor) (j : StyleId) :
    ((r.update_all_styles_opacity d).defined_styles).lookup j
      = match planLast j (updateAllSpec r d) with
        | some g => (r.defined_styles.lookup j).map g
        | none => r.defined_styles.lookup j := by
  show (StyleRegistry.writeBack (StyleRegistry.writeBack r.defined_styles
      (StyleRegistry.get_updated_styles r r.background_color_style_map
        Style.set_background_opacity d))
      (StyleRegistry.get_updated_styles r r.foreground_color_style_map
        Style.set_foreground_opacity d)).lookup j = _
  rw [StyleRegistry.writeBack_append,
    StyleRegistry.get_updated_styles_eq, StyleRegistry.get_updated_styles_eq,
    ← List.filterMap_append, StyleRegistry.writeBack_lookup, lastWrite_filterMap]
  unfold updateAllSpec
  cases planLast j
      (specOf r.defined_opacities r.background_color_style_map
          Style.set_background_opacity d
        ++ specOf r.defined_opacities r.foreground_color_style_map
          Style.set_foreground_opacity d) <;>
    cases r.defined_styles.lookup j <;> simp

theorem planLast_mem (j : StyleId) (L : List (StyleId × (Style → Style)))
    (g : Style → Style) (h : planLast j L = some g) : (j, g) ∈ L := by
  induction L with
  | nil => simp [planLast] at h
  | cons q L ih =>
    rw [planLast] at h
    cases hp : planLast j L with
    | some g' =>
      rw [hp] at h
      have hgg : g' = g := by injection h
      exact List.mem_cons_of_mem _ (ih (hgg ▸ hp))
    | none =>
      rw [hp] at h
      by_cases hqj : q.1 = j
      · rw [if_pos hqj] at h
        have hg : q.2 = g := by injection h
        have hqg : (j, g) = q := Prod.ext hqj.symm hg.symm
        exact List.mem_cons.mpr (Or.inl hqg)
      · rw [if_neg hqj] at h
        exact absurd h (by simp)

theorem specOf_mem (opac : Table ColorId ColorOpacity)
    (m : Table ColorId (List StyleId)) (f : Style → ColorOpacity → Factor → Style)
    (d : Factor) (j : StyleId) (g : Style → Style)
    (h : (j, g) ∈ specOf opac m f d) : ∃ o, g = fun s => f s o d := by
  unfold specOf at h
  obtain ⟨p, _, hmem⟩ := List.mem_flatMap.mp h
  cases ho : opac.lookup p.1 with
  | none => rw [ho] at hmem; simp at hmem
  | some co =>
    rw [ho] at hmem
    obtain ⟨j', _, heq⟩ := List.mem_map.mp hmem
    exact ⟨co, (congrArg Prod.snd heq).symm⟩

theorem updateAllSpec_mem (r : StyleRegistry) (d : Factor) (j : StyleId)
    (g : Style → Style) (h : (j, g) ∈ updateAllSpec r d) :
    (∃ o, g = fun s => s.set_background_opacity o d)
      ∨ (∃ o, g = fun s => s.set_foreground_opacity o d) := by
  unfold updateAllSpec at h
  rcases List.mem_append.mp h with h | h
  · exact Or.inl (specOf_mem _ _ _ _ _ _ h)
  · exact Or.inr (specOf_mem _ _ _ _ _ _ h)

theorem updateAllSpec_of_update_all (r : StyleRegistry) (d e : Factor) :
    updateAllSpec (r.update_all_styles_opacity e) d = updateAllSpec r d := rfl

/-! ## Further helper lemmas -/

theorem StyleRegistry.update_opacity_pass_empty (t : Table StyleId Style)
    (m : Table ColorId (List StyleId)) (c : ColorId) (f : Style → Style)
    (h : idsOf m c = []) : StyleRegistry.update_opacity_pass t m c f = t := by
  unfold StyleRegistry.update_opacity_pass
  cases hm : m.lookup c with
  | none => rfl
  | some l =>
    have hl : l = [] := by
      unfold idsOf at h
      rw [hm] at h
      exact h
    rw [hl]
    rfl

theorem StyleRegistry.set_style_bg_map_none (r : StyleRegistry) (style : Style)
    (id : StyleId) (d : Factor) (h : style.bg = none) :
    (r.set_style style id d).background_color_style_map
      = r.background_color_style_map := by
  show (r.update_color_to_style_mapping
    (r.update_style_opacities_from_existing_mapping style d) id).background_color_style_map = _
  unfold StyleRegistry.update_color_to_style_mapping
  rw [StyleRegistry.adjust_bg, h]
  cases (r.update_style_opacities_from_existing_mapping style d).fg <;> rfl

theorem StyleRegistry.set_style_fg_map_none (r : StyleRegistry) (style : Style)
    (id : StyleId) (d : Factor) (h : style.fg = none) :
    (r.set_style style id d).foreground_color_style_map
      = r.foreground_color_style_map := by
  show (r.update_color_to_style_mapping
    (r.update_style_opacities_from_existing_mapping style d) id).foreground_color_style_map = _
  unfold StyleRegistry.update_color_to_style_mapping
  rw [StyleRegistry.adjust_fg, h]
  cases (r.update_style_opacities_from_existing_mapping style d).bg <;> rfl

theorem StyleRegistry.set_style_bg_idsOf (r : StyleRegistry) (style : Style)
    (id : StyleId) (d : Factor) (c : ColorId) :
    idsOf (r.set_style style id d).background_color_style_map c
      = if style.bg = some c
        then idsOf r.background_color_style_map c ++ [id]
        else idsOf r.background_color_style_map c := by
  unfold idsOf
  rw [StyleRegistry.set_style_bg_index]
  by_cases hc : style.bg = some c <;> simp [hc, idsOf]

theorem StyleRegistry.set_style_fg_idsOf (r : StyleRegistry) (style : Style)
    (id : StyleId) (d : Factor) (c : ColorId) :
    idsOf (r.set_style style id d).foreground_color_style_map c
      = if style.fg = some c
        then idsOf r.foreground_color_style_map c ++ [id]
        else idsOf r.foreground_color_style_map c := by
  unfold idsOf
  rw [StyleRegistry.set_style_fg_index]
  by_cases hc : style.fg = some c <;> simp [hc, idsOf]

/-- One operation preserves the invariant that every id listed in a reverse
index has an entry in the primary table. -/
theorem exec_preserves_index_inv (r : StyleRegistry) (op : Op)
    (h : ∀ c id, (id ∈ idsOf r.background_color_style_map c
        ∨ id ∈ idsOf r.foreground_color_style_map c) →
      (r.defined_styles.lookup id).isSome = true) :
    ∀ c id, (id ∈ idsOf (exec r op).background_color_style_map c
        ∨ id ∈ idsOf (exec r op).foreground_color_style_map c) →
      ((exec r op).defined_styles.lookup id).isSome = true := by
  cases op with
  | setStyle s i d =>
    intro c id hmem
    show ((r.set_style s i d).defined_styles.lookup id).isSome = true
    rw [StyleRegistry.set_style_lookup]
    by_cases hii : i = id
    · rw [if_pos hii]
      rfl
    · rw [if_neg hii]
      apply h c id
      rcases hmem with hb | hf
      · left
        rw [show (exec r (Op.setStyle s i d)).background_color_style_map
            = (r.set_style s i d).background_color_style_map from rfl,
          StyleRegistry.set_style_bg_idsOf] at hb
        by_cases hc : s.bg = some c
        · rw [if_pos hc] at hb
          rcases List.mem_append.mp hb with h1 | h1
          · exact h1
          · have : id = i := by simpa using h1
            exact absurd this.symm hii
        · rw [if_neg hc] at hb
          exact hb
      · right
        rw [show (exec r (Op.setStyle s i d)).foreground_color_style_map
            = (r.set_style s i d).foreground_color_style_map from rfl,
          StyleRegistry.set_style_fg_idsOf] at hf
        by_cases hc : s.fg = some c
        · rw [if_pos hc] at hf
          rcases List.mem_append.mp hf with h1 | h1
          · exact h1
          · have : id = i := by simpa using h1
            exact absurd this.symm hii
        · rw [if_neg hc] at hf
          exact hf
  | setOpacity c' o d =>
    intro c id hmem
    have hb : (r.defined_styles.lookup id).isSome = true := h c id hmem
    show ((r.set_opacity c' o d).defined_styles.lookup id).isSome = true
    rw [StyleRegistry.set_opacity_lookup]
    cases hl : r.defined_styles.lookup id with
    | none => rw [hl] at hb; exact absurd hb (by simp)
    | some s => simp
  | updateAll d =>
    intro c id hmem
    have hb : (r.defined_styles.lookup id).isSome = true := h c id hmem
    show ((r.update_all_styles_opacity d).defined_styles.lookup id).isSome = true
    rw [StyleRegistry.update_all_lookup]
    cases hp : planLast id (updateAllSpec r d) with
    | none => exact hb
    | some g =>
      cases hl : r.defined_styles.lookup id with
      | none => rw [hl] at hb; exact absurd hb (by simp)
      | some s => simp

theorem execAll_preserves_index_inv (ops : List Op) :
    ∀ r : StyleRegistry,
      (∀ c id, (id ∈ idsOf r.background_color_style_map c
          ∨ id ∈ idsOf r.foreground_color_style_map c) →
        (r.defined_styles.lookup id).isSome = true) →
      ∀ c id, (id ∈ idsOf (execAll r ops).background_color_style_map c
          ∨ id ∈ idsOf (execAll r ops).foreground_color_style_map c) →
        ((execAll r ops).defined_styles.lookup id).isSome = true := by
  induction ops with
  | nil => intro r h; exact h
  | cons op ops ih =>
    intro r h
    exact ih (exec r op) (exec_preserves_index_inv r op h)

/-- One operation that does not define a style under id 0 keeps the default
slot empty. -/
theorem exec_preserves_no_default (r : StyleRegistry) (op : Op)
    (hop : op.touchesId 0 = false) (h : r.defined_styles.lookup 0 = none) :
    (exec r op).defined_styles.lookup 0 = none := by
  cases op with
  | setStyle s i d =>
    have hi : ¬ i = 0 := by simpa [Op.touchesId] using hop
    show (r.set_style s i d).defined_styles.lookup 0 = none
    rw [StyleRegistry.set_style_lookup, if_neg hi, h]
  | setOpacity c o d =>
    show (r.set_opacity c o d).defined_styles.lookup 0 = none
    rw [StyleRegistry.set_opacity_lookup, h]
    rfl
  | updateAll d =>
    show (r.update_all_styles_opacity d).defined_styles.lookup 0 = none
    rw [StyleRegistry.update_all_lookup]
    cases planLast 0 (updateAllSpec r d) <;> rw [h] <;> rfl

theorem execAll_preserves_no_default (ops : List Op) :
    ∀ r : StyleRegistry, (∀ op ∈ ops, op.touchesId 0 = false) →
      r.defined_styles.lookup 0 = none →
      (execAll r ops).defined_styles.lookup 0 = none := by
  induction ops with
  | nil => intro r _ h; exact h
  | cons op ops ih =>
    intro r hops h
    exact ih (exec r op) (fun o ho => hops o (List.mem_cons_of_mem _ ho))
      (exec_preserves_no_default r op (hops op (List.mem_cons_self _ _)) h)

/-! ## Claim theorems -/

/-- C1: In `dualColorRegistry`, style 1 is recorded under background color 5
(configured opacity 10) and foreground color 6 (configured opacity 20).  After
`update_all_styles_opacity` with the new default factor 1, the foreground
opacity is recomputed from (20, 1), but the background opacity still holds
the stale pair (10, 0) instead of (10, 1): the foreground write-back, computed
from the pre-pass snapshot, overwrites the background update.  The claim
("neither write is lost") therefore fails on the code. -/
theorem update_all_styles_opacity_drops_background_update :
    idsOf dualColorRegistry.background_color_style_map 5 = [1] ∧
    idsOf dualColorRegistry.foreground_color_style_map 6 = [1] ∧
    dualColorRegistry.defined_opacities.lookup 5 = some 10 ∧
    dualColorRegistry.defined_opacities.lookup 6 = some 20 ∧
    ((dualColorRegistry.update_all_styles_opacity 1).defined_styles.lookup 1).map
        Style.fgOpacity = some (some (20, 1)) ∧
    ((dualColorRegistry.update_all_styles_opacity 1).defined_styles.lookup 1).map
        Style.bgOpacity = some (some (10, 0)) := by
  decide

/-- C2 counterexample: in `fgOnlyRegistry`, style 1 uses color 5 only as
foreground (its background color is `none`, in particular not 5), yet
`set_opacity(5, 7, 1)` changes its stored value (the foreground opacity is
recomputed), contradicting the claim that the stored value is unchanged. -/
theorem set_opacity_changes_foreground_only_style :
    (fgOnlyRegistry.defined_styles.lookup 1).map Style.bg = some none ∧
    (fgOnlyRegistry.defined_styles.lookup 1).map Style.fg = some (some 5) ∧
    (fgOnlyRegistry.set_opacity 5 7 1).defined_styles.lookup 1
      ≠ fgOnlyRegistry.defined_styles.lookup 1 := by
  decide

/-- C2 (amended): a style whose identifier is not recorded against C in the
background reverse index (as holds for a style only ever defined with C as
foreground) has everything except possibly its foreground opacity preserved
by `set_opacity(C, o, d)`: background color, foreground color, background
opacity and the other attributes are unchanged. -/
theorem set_opacity_preserves_all_but_foreground_opacity (r : StyleRegistry)
    (C : ColorId) (o : ColorOpacity) (d : Factor) (id : StyleId) (s s' : Style)
    (hbg : id ∉ idsOf r.background_color_style_map C)
    (hs : r.defined_styles.lookup id = some s)
    (hs' : (r.set_opacity C o d).defined_styles.lookup id = some s') :
    s'.bg = s.bg ∧ s'.fg = s.fg ∧ s'.bgOpacity = s.bgOpacity ∧ s'.attrs = s.attrs := by
  rw [StyleRegistry.set_opacity_lookup, hs] at hs'
  by_cases hfg : id ∈ idsOf r.foreground_color_style_map C
  · simp only [Option.map_some', hbg, hfg] at hs'
    have hval : s.set_foreground_opacity o d = s' := by
      injection hs'
    rw [← hval]
    simp [Style.set_foreground_opacity]
  · simp only [Option.map_some', hbg, hfg] at hs'
    have hval : s = s' := by injection hs'
    rw [← hval]
    exact ⟨rfl, rfl, rfl, rfl⟩

/-- C2 witness: the amended theorem applied to `fgOnlyRegistry` at color 5. -/
theorem set_opacity_preserves_all_but_foreground_opacity_witness :
    fgOnlyStyleAfter.bg = fgOnlyStyleBefore.bg ∧
    fgOnlyStyleAfter.fg = fgOnlyStyleBefore.fg ∧
    fgOnlyStyleAfter.bgOpacity = fgOnlyStyleBefore.bgOpacity ∧
    fgOnlyStyleAfter.attrs = fgOnlyStyleBefore.attrs :=
  set_opacity_preserves_all_but_foreground_opacity fgOnlyRegistry 5 7 1 1
    fgOnlyStyleBefore fgOnlyStyleAfter (by decide) (by decide) (by decide)

/-- C3: `set_opacity(A, o, d)` leaves untouched every primary-table entry
whose identifier is recorded against A in neither reverse index; hence any
entry that changes is recorded against A in the background or foreground
reverse index, and styles associated only with another color B ≠ A are never
changed. -/
theorem set_opacity_no_interference (r : StyleRegistry) (A : ColorId)
    (o : ColorOpacity) (d : Factor) (id : StyleId)
    (hb : id ∉ idsOf r.background_color_style_map A)
    (hf : id ∉ idsOf r.foreground_color_style_map A) :
    (r.set_opacity A o d).defined_styles.lookup id
      = r.defined_styles.lookup id := by
  rw [StyleRegistry.set_opacity_lookup]
  cases r.defined_styles.lookup id <;> simp [hb, hf]

/-- C3 witness: updating color 9 in `fgOnlyRegistry` leaves style 1 (indexed
only under color 5) untouched. -/
theorem set_opacity_no_interference_witness :
    (fgOnlyRegistry.set_opacity 9 7 1).defined_styles.lookup 1
      = fgOnlyRegistry.defined_styles.lookup 1 :=
  set_opacity_no_interference fgOnlyRegistry 9 7 1 1 (by decide) (by decide)

/-- C4: after `set_opacity(C, o, d)`, any stored style whose id is recorded
against C in the background reverse index has its background opacity
recomputed from (o, d); any id recorded in the foreground reverse index has
its foreground opacity recomputed from (o, d); an id recorded in both gets
both; and the opacity table's entry for C is upserted to o. -/
theorem set_opacity_updates_indexed_styles (r : StyleRegistry) (C : ColorId)
    (o : ColorOpacity) (d : Factor) (id : StyleId) (s' : Style)
    (h : (r.set_opacity C o d).defined_styles.lookup id = some s') :
    (id ∈ idsOf r.background_color_style_map C → s'.bgOpacity = some (o, d)) ∧
    (id ∈ idsOf r.foreground_color_style_map C → s'.fgOpacity = some (o, d)) ∧
    (r.set_opacity C o d).defined_opacities.lookup C = some o := by
  refine ⟨?_, ?_, ?_⟩
  · intro hb
    rw [StyleRegistry.set_opacity_lookup] at h
    cases hl : r.defined_styles.lookup id with
    | none => rw [hl] at h; exact absurd h (by simp)
    | some s =>
      rw [hl] at h
      simp only [Option.map_some'] at h
      by_cases hfg : id ∈ idsOf r.foreground_color_style_map C <;>
        · have hval := Option.some.inj h
          rw [← hval]
          simp [hb, hfg, Style.set_background_opacity, Style.set_foreground_opacity]
  · intro hf
    rw [StyleRegistry.set_opacity_lookup] at h
    cases hl : r.defined_styles.lookup id with
    | none => rw [hl] at h; exact absurd h (by simp)
    | some s =>
      rw [hl] at h
      simp only [Option.map_some'] at h
      by_cases hbg : id ∈ idsOf r.background_color_style_map C <;>
        · have hval := Option.some.inj h
          rw [← hval]
          simp [hf, hbg, Style.set_background_opacity, Style.set_foreground_opacity]
  · show (r.defined_opacities.insert C o).lookup C = some o
    exact Table.lookup_insert_self _ _ _

/-- C4 witness: in `bothColorRegistry`, style 1 uses color 5 as both
background and foreground; `set_opacity(5, 9, 4)` applies both recomputations
and records the opacity entry. -/
theorem set_opacity_updates_indexed_styles_witness :
    bothColorStyleAfter.bgOpacity = some (9, 4) ∧
    bothColorStyleAfter.fgOpacity = some (9, 4) ∧
    (bothColorRegistry.set_opacity 5 9 4).defined_opacities.lookup 5 = some 9 := by
  have h := set_opacity_updates_indexed_styles bothColorRegistry 5 9 4 1
    bothColorStyleAfter (by decide)
  exact ⟨h.1 (by decide), h.2.1 (by decide), h.2.2⟩

/-- C5: `set_style` stores the style with any previously recorded opacity of
its background (resp. foreground) color already applied at the supplied
default factor, with no further call required; a side whose color has no
recorded opacity entry is stored unadjusted, and the style's colors and other
attributes are stored as given. -/
theorem set_style_applies_recorded_opacities (r : StyleRegistry) (style : Style)
    (id : StyleId) (d : Factor) :
    (∀ c o, style.bg = some c → r.defined_opacities.lookup c = some o →
      ((r.set_style style id d).defined_styles.lookup id).map Style.bgOpacity
        = some (some (o, d))) ∧
    (style.bg.bind (fun c => r.defined_opacities.lookup c) = none →
      ((r.set_style style id d).defined_styles.lookup id).map Style.bgOpacity
        = some style.bgOpacity) ∧
    (∀ c o, style.fg = some c → r.defined_opacities.lookup c = some o →
      ((r.set_style style id d).defined_styles.lookup id).map Style.fgOpacity
        = some (some (o, d))) ∧
    (style.fg.bind (fun c => r.defined_opacities.lookup c) = none →
      ((r.set_style style id d).defined_styles.lookup id).map Style.fgOpacity
        = some style.fgOpacity) ∧
    ((r.set_style style id d).defined_styles.lookup id).map Style.bg
        = some style.bg ∧
    ((r.set_style style id d).defined_styles.lookup id).map Style.fg
        = some style.fg ∧
    ((r.set_style style id d).defined_styles.lookup id).map Style.attrs
        = some style.attrs := by
  rw [StyleRegistry.set_style_lookup, if_pos rfl]
  simp only [Option.map_some']
  refine ⟨?_, ?_, ?_, ?_, ?_, ?_, ?_⟩
  · intro c o hc ho
    rw [StyleRegistry.adjust_bgOpacity_some r style d c o hc ho]
  · intro hn
    rw [StyleRegistry.adjust_bgOpacity_none r style d hn]
  · intro c o hc ho
    rw [StyleRegistry.adjust_fgOpacity_some r style d c o hc ho]
  · intro hn
    rw [StyleRegistry.adjust_fgOpacity_none r style d hn]
  · rw [StyleRegistry.adjust_bg]
  · rw [StyleRegistry.adjust_fg]
  · rw [StyleRegistry.adjust_attrs]

/-- C5 witness: in `opacityRegistry` (opacity 9 recorded for color 5),
defining `sampleStyle` (bg 5, fg 6) under id 10 with factor 4 stores it with
the background opacity applied and the foreground side unadjusted. -/
theorem set_style_applies_recorded_opacities_witness :
    ((opacityRegistry.set_style sampleStyle 10 4).defined_styles.lookup 10).map
        Style.bgOpacity = some (some (9, 4)) ∧
    ((opacityRegistry.set_style sampleStyle 10 4).defined_styles.lookup 10).map
        Style.fgOpacity = some none ∧
    ((opacityRegistry.set_style sampleStyle 10 4).defined_styles.lookup 10).map
        Style.attrs = some 7 := by
  have h := set_style_applies_recorded_opacities opacityRegistry sampleStyle 10 4
  refine ⟨h.1 5 9 (by decide) (by decide), ?_, ?_⟩
  · have h4 := h.2.2.2.1 (by decide)
    simpa [sampleStyle] using h4
  · have h7 := h.2.2.2.2.2.2
    simpa [sampleStyle] using h7

/-- C6: running `update_all_styles_opacity` twice with the same default
factor leaves every entry of the identifier→style table as after one run
(the modelled opacity setters recompute purely from the configured opacity
and the factor, as the spec stipulates). -/
theorem update_all_styles_opacity_idempotent (r : StyleRegistry) (d : Factor)
    (j : StyleId) :
    ((r.update_all_styles_opacity d).update_all_styles_opacity d).defined_styles.lookup j
      = (r.update_all_styles_opacity d).defined_styles.lookup j := by
  rw [StyleRegistry.update_all_lookup (r.update_all_styles_opacity d) d j,
    updateAllSpec_of_update_all, StyleRegistry.update_all_lookup r d j]
  cases hp : planLast j (updateAllSpec r d) with
  | none => rfl
  | some g =>
    have hg := updateAllSpec_mem r d j g (planLast_mem j _ g hp)
    cases r.defined_styles.lookup j with
    | none => rfl
    | some s =>
      simp only [Option.map_some']
      rcases hg with ⟨o, rfl⟩ | ⟨o, rfl⟩ <;>
        simp [Style.set_background_opacity, Style.set_foreground_opacity]

/-- C7: redefining an already-used identifier fully replaces the stored value
by the new, opacity-adjusted style; both reverse indices keep every previous
list and append the identifier exactly once under the new style's background
(resp. foreground) color, with no deduplication. -/
theorem set_style_replacement_and_index_append (r : StyleRegistry)
    (style old : Style) (id : StyleId) (d : Factor)
    (hold : r.defined_styles.lookup id = some old) :
    (r.set_style style id d).defined_styles.lookup id
        = some (r.update_style_opacities_from_existing_mapping style d) ∧
    (∀ c, (r.set_style style id d).background_color_style_map.lookup c
        = if style.bg = some c
          then some (idsOf r.background_color_style_map c ++ [id])
          else r.background_color_style_map.lookup c) ∧
    (∀ c, (r.set_style style id d).foreground_color_style_map.lookup c
        = if style.fg = some c
          then some (idsOf r.foreground_color_style_map c ++ [id])
          else r.foreground_color_style_map.lookup c) := by
  refine ⟨?_, ?_, ?_⟩
  · rw [StyleRegistry.set_style_lookup, if_pos rfl]
  · intro c
    exact StyleRegistry.set_style_bg_index r style id d c
  · intro c
    exact StyleRegistry.set_style_fg_index r style id d c

/-- C7 witness: redefining id 1 of `dualColorRegistry` with `sampleStyle`
replaces the stored style by the adjusted one and appends 1 a second time
under colors 5 and 6. -/
theorem set_style_replacement_and_index_append_witness :
    (dualColorRegistry.set_style sampleStyle 1 2).defined_styles.lookup 1
        = some sampleStyleAdjusted ∧
    (dualColorRegistry.set_style sampleStyle 1 2).background_color_style_map.lookup 5
        = some [1, 1] ∧
    (dualColorRegistry.set_style sampleStyle 1 2).foreground_color_style_map.lookup 6
        = some [1, 1] := by
  have h := set_style_replacement_and_index_append dualColorRegistry sampleStyle
    dualStoredStyle 1 2 (by decide)
  refine ⟨?_, ?_, ?_⟩
  · rw [h.1]
    decide
  · rw [h.2.1 5]
    decide
  · rw [h.2.2 6]
    decide

/-- C8: the registry's operations are total and skip silently: `set_opacity`
on a color with no indexed style identifiers still records the opacity entry
and changes no styles; `set_style` with a style lacking a background (resp.
foreground) color leaves the corresponding reverse index untouched; and an
identifier with no entry in the primary table stays absent through
`set_opacity` (the skip branch invents no entry). -/
theorem registry_operations_total_and_skip (r : StyleRegistry) (C : ColorId)
    (o : ColorOpacity) (d : Factor) (style : Style) (id j : StyleId) :
    (r.set_opacity C o d).defined_opacities.lookup C = some o ∧
    (idsOf r.background_color_style_map C = [] →
      idsOf r.foreground_color_style_map C = [] →
      (r.set_opacity C o d).defined_styles = r.defined_styles) ∧
    (style.bg = none → (r.set_style style id d).background_color_style_map
        = r.background_color_style_map) ∧
    (style.fg = none → (r.set_style style id d).foreground_color_style_map
        = r.foreground_color_style_map) ∧
    (r.defined_styles.lookup j = none →
      (r.set_opacity C o d).defined_styles.lookup j = none) := by
  refine ⟨?_, ?_, ?_, ?_, ?_⟩
  · show (r.defined_opacities.insert C o).lookup C = some o
    exact Table.lookup_insert_self _ _ _
  · intro h1 h2
    show StyleRegistry.update_opacity_pass (StyleRegistry.update_opacity_pass
        r.defined_styles r.background_color_style_map C _)
      r.foreground_color_style_map C _ = r.defined_styles
    rw [StyleRegistry.update_opacity_pass_empty _ _ _ _ h1,
      StyleRegistry.update_opacity_pass_empty _ _ _ _ h2]
  · intro hb
    exact StyleRegistry.set_style_bg_map_none r style id d hb
  · intro hf
    exact StyleRegistry.set_style_fg_map_none r style id d hf
  · intro hj
    rw [StyleRegistry.set_opacity_lookup, hj]
    rfl

/-- C8 witness: the operations applied to `fgOnlyRegistry` at a color (9) and
an identifier (99) the registry knows nothing about, and to the colorless
style. -/
theorem registry_operations_total_and_skip_witness :
    (fgOnlyRegistry.set_opacity 9 2 3).defined_opacities.lookup 9 = some 2 ∧
    (fgOnlyRegistry.set_opacity 9 2 3).defined_styles = fgOnlyRegistry.defined_styles ∧
    (fgOnlyRegistry.set_style colorlessStyle 4 3).background_color_style_map
        = fgOnlyRegistry.background_color_style_map ∧
    (fgOnlyRegistry.set_style colorlessStyle 4 3).foreground_color_style_map
        = fgOnlyRegistry.foreground_color_style_map ∧
    (fgOnlyRegistry.set_opacity 9 2 3).defined_styles.lookup 99 = none := by
  have h := registry_operations_total_and_skip fgOnlyRegistry 9 2 3 colorlessStyle 4 99
  exact ⟨h.1, h.2.1 (by decide) (by decide), h.2.2.1 (by decide),
    h.2.2.2.1 (by decide), h.2.2.2.2 (by decide)⟩

/-- C9: `default_style` is `none` on a fresh registry and after any sequence
of operations none of which defines a style under identifier 0; and
immediately after a `set_style` under identifier 0 it returns the stored
(opacity-adjusted) style. -/
theorem default_style_absent_until_id_zero_set :
    StyleRegistry.new.default_style = none ∧
    (∀ ops : List Op, (∀ op ∈ ops, op.touchesId 0 = false) →
      (execAll StyleRegistry.new ops).default_style = none) ∧
    (∀ (r : StyleRegistry) (style : Style) (d : Factor),
      (r.set_style style 0 d).default_style
        = some (r.update_style_opacities_from_existing_mapping style d)) := by
  refine ⟨rfl, ?_, ?_⟩
  · intro ops hops
    show (execAll StyleRegistry.new ops).defined_styles.lookup 0 = none
    exact execAll_preserves_no_default ops StyleRegistry.new hops rfl
  · intro r style d
    show (r.set_style style 0 d).defined_styles.lookup 0 = some _
    rw [StyleRegistry.set_style_lookup, if_pos rfl]

/-- C9 witness: a trace that never defines id 0 leaves `default_style`
absent; defining id 0 makes it return the stored style. -/
theorem default_style_absent_until_id_zero_set_witness :
    (execAll StyleRegistry.new
        [Op.setOpacity 5 1 2, Op.setStyle sampleStyle 3 2, Op.updateAll 4]).default_style
      = none ∧
    (StyleRegistry.new.set_style sampleStyle 0 2).default_style = some sampleStyle := by
  have h := default_style_absent_until_id_zero_set
  constructor
  · exact h.2.1 _ (by decide)
  · rw [h.2.2 StyleRegistry.new sampleStyle 2]
    decide

/-- C10: starting from a fresh registry, after any sequence of operations
every identifier occurring in any list of either reverse index has an entry
in the identifier→style table, so the not-found skip branch of `set_opacity`
can never fire on a reachable registry. -/
theorem reverse_index_ids_always_have_styles (ops : List Op) (c : ColorId)
    (id : StyleId)
    (h : id ∈ idsOf (execAll StyleRegistry.new ops).background_color_style_map c
      ∨ id ∈ idsOf (execAll StyleRegistry.new ops).foreground_color_style_map c) :
    ((execAll StyleRegistry.new ops).defined_styles.lookup id).isSome = true := by
  refine execAll_preserves_index_inv ops StyleRegistry.new ?_ c id h
  intro c' id' h'
  have hbg : idsOf StyleRegistry.new.background_color_style_map c' = [] := rfl
  have hfg : idsOf StyleRegistry.new.foreground_color_style_map c' = [] := rfl
  rcases h' with hb | hf
  · rw [hbg] at hb
    exact absurd hb (List.not_mem_nil _)
  · rw [hfg] at hf
    exact absurd hf (List.not_mem_nil _)

/-- C10 witness: after one `set_style`, the id recorded in the background
index has a stored style. -/
theorem reverse_index_ids_always_have_styles_witness :
    ((execAll StyleRegistry.new
        [Op.setStyle sampleStyle 3 2]).defined_styles.lookup 3).isSome = true :=
  reverse_index_ids_always_have_styles [Op.setStyle sampleStyle 3 2] 5 3
    (Or.inl (by decide))
